import Mathlib

/-!
Verification of the `hospitals` dataset-synchronization notebook.

The program polls a catalog API, filters datasets by a theme substring,
downloads stale datasets concurrently, renames CSV columns to snake_case,
and tracks per-dataset watermarks in a JSON metadata file.

The Lean development below is a shallow embedding of that code:

* `to_snake_case` mirrors the three-step column renamer
  (`re.sub(r'([a-z0-9])([A-Z])', r'\1_\2', ...)`, then `re.sub(r'\W+', '_', ...)`,
  then `.strip('_').lower()`), over the printable-ASCII alphabet where the
  Python character classes coincide with the explicit code ranges used here.
* `DateTime`, `strptime`, `pyDateTimeStr` mirror `datetime.strptime` with the
  fixed-width format `%Y-%m-%dT%H:%M:%S`, Python's lexicographic comparison of
  datetimes, and `str(datetime)` (the encoding that `json.dump(..., default=str)`
  applies to a `datetime` value).
* `file_modified_since_last_run`, `download_and_process`, and `runMain` mirror
  the corresponding notebook functions; exceptions of the Python code are
  modelled with `Except PyError`.
-/

/-- ASCII lowercase letter or digit: the character class `[a-z0-9]` of the
first regex in `to_snake_case` (codes 97-122 and 48-57). -/
def isLowerDigit (c : Char) : Bool :=
  (97 ≤ c.toNat && c.toNat ≤ 122) || (48 ≤ c.toNat && c.toNat ≤ 57)

/-- ASCII uppercase letter: the character class `[A-Z]` of the first regex in
`to_snake_case` (codes 65-90). -/
def isUpperAscii (c : Char) : Bool :=
  65 ≤ c.toNat && c.toNat ≤ 90

/-- Word character in the sense of the regex class `\w` restricted to ASCII:
`[a-zA-Z0-9_]`.  The second regex of `to_snake_case` substitutes runs of `\W`
(the complement of this class); note that `_` is a word character, so the
substitution does not touch underscores. -/
def isWordChar (c : Char) : Bool :=
  isLowerDigit c || isUpperAscii c || c == '_'

/-- ASCII lowering, the effect of Python `str.lower()` on each ASCII
character: uppercase letters move down by 32, everything else is unchanged. -/
def lowerChar (c : Char) : Char :=
  if isUpperAscii c then Char.ofNat (c.toNat + 32) else c

/-- First pass of `to_snake_case`:
`re.sub(r'([a-z0-9])([A-Z])', r'\1_\2', name)` inserts an underscore between a
lowercase-or-digit character and an immediately following uppercase character.
The two classes are disjoint, so matches never overlap and the substitution is
equivalent to this pairwise insertion. -/
def camelPass : List Char → List Char
  | [] => []
  | [c] => [c]
  | c1 :: c2 :: rest =>
    if isLowerDigit c1 && isUpperAscii c2 then c1 :: '_' :: camelPass (c2 :: rest)
    else c1 :: camelPass (c2 :: rest)

/-- Worker for the second pass: the flag records whether the previous input
character belonged to a (still open) run of non-word characters, in which case
further non-word characters are absorbed into the single `_` already
emitted. -/
def squashAux : Bool → List Char → List Char
  | _, [] => []
  | inRun, c :: rest =>
    if isWordChar c then c :: squashAux false rest
    else if inRun then squashAux inRun rest
    else '_' :: squashAux true rest

/-- Second pass of `to_snake_case`: `re.sub(r'\W+', '_', name)` replaces every
maximal run of non-word characters with a single underscore. -/
def squashNonWord (l : List Char) : List Char :=
  squashAux false l

/-- Third pass of `to_snake_case`, first half: `name.strip('_')` removes
leading and trailing underscores. -/
def stripUnderscores (l : List Char) : List Char :=
  ((l.dropWhile (· == '_')).reverse.dropWhile (· == '_')).reverse

/-- Embedding of `to_snake_case` from the notebook:
camelCase-boundary insertion, collapse of non-word runs to `_`, strip of
leading and trailing underscores, and lowering. -/
def to_snake_case (s : String) : String :=
  ⟨(stripUnderscores (squashNonWord (camelPass s.data))).map lowerChar⟩

example : to_snake_case "HospitalName" = "hospital_name" := by decide

example : to_snake_case "Facility ID" = "facility_id" := by decide

example : to_snake_case "___Weird---Name!!" = "weird_name" := by decide

example : to_snake_case "" = "" := by decide

example : to_snake_case "a__b" = "a__b" := by decide

deriving instance DecidableEq for Except

/-- Python exceptions that the embedded code paths can raise. -/
inductive PyError where
  | typeError
  | valueError
  | keyError
  | connectionError
  | parseError
deriving DecidableEq, Repr

/-- Naive datetime as produced by `datetime.strptime(s, '%Y-%m-%dT%H:%M:%S')`. -/
structure DateTime where
  year : Nat
  month : Nat
  day : Nat
  hour : Nat
  minute : Nat
  second : Nat
deriving DecidableEq, Repr

/-- Python's comparison of two naive datetimes: lexicographic on
(year, month, day, hour, minute, second).  `DateTime.ltb a b` means `a < b`,
that is, `b` is strictly later. -/
def DateTime.ltb (a b : DateTime) : Bool :=
  if a.year ≠ b.year then Nat.blt a.year b.year
  else if a.month ≠ b.month then Nat.blt a.month b.month
  else if a.day ≠ b.day then Nat.blt a.day b.day
  else if a.hour ≠ b.hour then Nat.blt a.hour b.hour
  else if a.minute ≠ b.minute then Nat.blt a.minute b.minute
  else Nat.blt a.second b.second

/-- Numeric value of an ASCII digit character, `none` otherwise. -/
def digitVal (c : Char) : Option Nat :=
  if 48 ≤ c.toNat ∧ c.toNat ≤ 57 then some (c.toNat - 48) else none

/-- Two-digit decimal field of the fixed-width timestamp format. -/
def twoDigits (a b : Char) : Option Nat := do
  let x ← digitVal a
  let y ← digitVal b
  pure (10 * x + y)

/-- Parser for the format `%Y-%m-%dT%H:%M:%S` in its fixed-width form
`YYYY-MM-DDTHH:MM:SS` (the form all catalog timestamps take), with basic range
validation of the calendar fields as `strptime` performs. -/
def parseIso (l : List Char) : Option DateTime :=
  match l with
  | [y1, y2, y3, y4, '-', mo1, mo2, '-', d1, d2, 'T',
     h1, h2, ':', mi1, mi2, ':', s1, s2] => do
    let a ← digitVal y1
    let b ← digitVal y2
    let c ← digitVal y3
    let d ← digitVal y4
    let mo ← twoDigits mo1 mo2
    let dy ← twoDigits d1 d2
    let h ← twoDigits h1 h2
    let mi ← twoDigits mi1 mi2
    let s ← twoDigits s1 s2
    if 1 ≤ mo ∧ mo ≤ 12 ∧ 1 ≤ dy ∧ dy ≤ 31 ∧ h ≤ 23 ∧ mi ≤ 59 ∧ s ≤ 59 then
      some ⟨1000 * a + 100 * b + 10 * c + d, mo, dy, h, mi, s⟩
    else none
  | _ => none

/-- Embedding of `datetime.strptime(v, '%Y-%m-%dT%H:%M:%S')` applied to a
value that may be `None` (a missing dictionary key read with `.get`): `None`
raises `TypeError`, a string not matching the format raises `ValueError`. -/
def strptimeIso (v : Option String) : Except PyError DateTime :=
  match v with
  | none => .error .typeError
  | some s =>
    match parseIso s.data with
    | some d => .ok d
    | none => .error .valueError

/-- Zero-padded two-digit decimal rendering. -/
def pad2 (n : Nat) : String :=
  if n < 10 then "0" ++ toString n else toString n

/-- Zero-padded four-digit decimal rendering. -/
def pad4 (n : Nat) : String :=
  if n < 10 then "000" ++ toString n
  else if n < 100 then "00" ++ toString n
  else if n < 1000 then "0" ++ toString n
  else toString n

/-- Rendering a datetime with Python's `str`, the encoding that
`json.dump(metadata, f, default=str)` applies to watermark values:
`YYYY-MM-DD HH:MM:SS`, with a space, not a `T`, between date and time. -/
def pyDateTimeStr (d : DateTime) : String :=
  pad4 d.year ++ "-" ++ pad2 d.month ++ "-" ++ pad2 d.day ++ " " ++
  pad2 d.hour ++ ":" ++ pad2 d.minute ++ ":" ++ pad2 d.second

example : pyDateTimeStr ⟨2024, 1, 1, 0, 0, 0⟩ = "2024-01-01 00:00:00" := by decide

/-- Value stored under a dataset id in `metadata['last_run']`: in the run that
downloaded the dataset it is the `datetime` object produced by `strptime`;
after a reload of the JSON metadata file it is the string written by
`json.dump(..., default=str)`. -/
inductive TimeVal where
  | dt (d : DateTime)
  | str (s : String)
deriving DecidableEq, Repr

/-- Embedding of the Python comparison `t > stored` at line 38 of the
notebook: two datetimes compare lexicographically; a datetime compared with a
string raises `TypeError`. -/
def pyGtDateTime (t : DateTime) (stored : TimeVal) : Except PyError Bool :=
  match stored with
  | .dt w => .ok (DateTime.ltb w t)
  | .str _ => .error .typeError

/-- In-memory sync metadata: the dictionary `{'last_run': {...}}`.  The inner
dictionary is modelled as an association list with unique keys in insertion
order, as a Python dict is. -/
structure Metadata where
  last_run : List (String × TimeVal)
deriving DecidableEq, Repr

/-- Dictionary lookup in `last_run`. -/
def lookupTV (k : String) : List (String × TimeVal) → Option TimeVal
  | [] => none
  | (k2, v) :: rest => if k2 = k then some v else lookupTV k rest

/-- Dictionary assignment `last_run[k] = v`: replaces the value of an existing
key in place, appends a new key at the end. -/
def updateTV (k : String) (v : TimeVal) :
    List (String × TimeVal) → List (String × TimeVal)
  | [] => [(k, v)]
  | (k2, v2) :: rest =>
    if k2 = k then (k2, v) :: rest else (k2, v2) :: updateTV k v rest

/-- Remote dataset record.  `file_modified_since_last_run` reads `id` and
`last_modified` with `dict.get`, so an absent key yields `None`; the fields
are therefore `Option`s.  `name` and `download_url` are modelled as always
present. -/
structure Dataset where
  id : Option String
  name : String
  last_modified : Option String
  download_url : String
deriving DecidableEq, Repr

/-- Embedding of `file_modified_since_last_run(dataset, metadata)` (notebook
lines 31-39): when `dataset.get('id')` is a key of `metadata['last_run']`, the
function parses `dataset.get('last_modified')` with `strptime` and compares
the result with `>` against the stored watermark; otherwise it returns `True`
without examining `last_modified` at all. -/
def file_modified_since_last_run (dataset : Dataset) (metadata : Metadata) :
    Except PyError Bool :=
  let stored : Option TimeVal :=
    match dataset.id with
    | some did => lookupTV did metadata.last_run
    | none => none
  match stored with
  | some w => do
    let t ← strptimeIso dataset.last_modified
    pyGtDateTime t w
  | none => .ok true

/-- Content of the metadata JSON file, reduced to its single field: the
`last_run` object mapping dataset id to timestamp string.  `dumpLastRun`
is the effect of `json.dump(metadata, f, default=str)` on that field: a
`datetime` watermark is encoded through `str`, a string watermark is written
as itself. -/
def dumpLastRun (l : List (String × TimeVal)) : List (String × String) :=
  l.map (fun p => (p.1,
    match p.2 with
    | .dt d => pyDateTimeStr d
    | .str s => s))

/-- Reading the metadata file back with `json.load`: every watermark comes
back as the string the file holds. -/
def loadMetadata (file : List (String × String)) : Metadata :=
  ⟨file.map (fun p => (p.1, TimeVal.str p.2))⟩

example :
    file_modified_since_last_run
      ⟨some "42", "A", some "2024-01-02T00:00:00", "u"⟩
      ⟨[("42", .dt ⟨2024, 1, 1, 0, 0, 0⟩)]⟩ = .ok true := by decide

example :
    file_modified_since_last_run
      ⟨some "42", "A", some "2024-01-01T00:00:00", "u"⟩
      ⟨[("42", .dt ⟨2024, 1, 1, 0, 0, 0⟩)]⟩ = .ok false := by decide

example :
    file_modified_since_last_run
      ⟨some "42", "A", some "2024-01-02T00:00:00", "u"⟩
      (loadMetadata (dumpLastRun [("42", .dt ⟨2024, 1, 1, 0, 0, 0⟩)])) =
      .error .typeError := by decide

/-- Configuration constant `DOWNLOAD_DIR` of the notebook. -/
def DOWNLOAD_DIR : String := "./datasets"

/-- Configuration constant `THEME` of the notebook. -/
def THEME : String := "Hospitals"

/-- Parsed CSV table as `pd.read_csv` produces it: a header row of column
names and the data rows. -/
structure Csv where
  header : List String
  rows : List (List String)
deriving DecidableEq, Repr

/-- External collaborators of one task, given by the interface the core needs
(spec section 1): `http url` is `requests.get(url)`, giving a status code and
a body or raising; `readCsv body` is `pd.read_csv` on the decoded body,
giving the parsed table or raising. -/
structure Fetcher where
  http : String → Except PyError (Nat × String)
  readCsv : String → Except PyError Csv

/-- Observable outcome of one task, read off the notebook's control flow and
prints: the early-return skip, the successful save, or the non-200
"Failed to download" branch (which prints and returns normally). -/
inductive SyncOutcome where
  | skipped
  | downloaded (path : String)
  | failedStatus (code : Nat)
deriving DecidableEq, Repr

/-- Trace of one `download_and_process` call.  `result` is `.error e` when the
Python call raises `e` out of the task - the function body has no try/except,
so every exception escapes.  `fetches` lists the download URLs actually
requested, `writes` the dataset files written, `metadata` the shared
dictionary after the call, and `persisted` the metadata file content written
by the task's `json.dump`, when execution reached it. -/
structure TaskOut where
  result : Except PyError SyncOutcome
  fetches : List String
  writes : List (String × Csv)
  metadata : Metadata
  persisted : Option (List (String × String))
deriving DecidableEq, Repr

/-- Embedding of `download_and_process(dataset, metadata)` (notebook lines
44-74), following the source's order of effects: staleness check with early
return; `requests.get` on `dataset['download_url']`; on status 200 the CSV
parse, the column rename via `to_snake_case`, the file write to
`DOWNLOAD_DIR/<id>.csv`, the metadata update
`metadata['last_run'][dataset['id']] = strptime(dataset['last_modified'], ...)`
and the `json.dump` of the whole metadata; on any other status only the
failure print.  Bracket access to a missing `id` or `last_modified` raises
`KeyError`, a malformed `last_modified` raises `ValueError`, both after the
stages already executed have had their effects. -/
def download_and_process (env : Fetcher) (dataset : Dataset)
    (metadata : Metadata) : TaskOut :=
  match file_modified_since_last_run dataset metadata with
  | .error e => ⟨.error e, [], [], metadata, none⟩
  | .ok false => ⟨.ok .skipped, [], [], metadata, none⟩
  | .ok true =>
    let url := dataset.download_url
    match env.http url with
    | .error e => ⟨.error e, [url], [], metadata, none⟩
    | .ok (status, body) =>
      if status = 200 then
        match env.readCsv body with
        | .error e => ⟨.error e, [url], [], metadata, none⟩
        | .ok df =>
          let renamed : Csv := ⟨df.header.map to_snake_case, df.rows⟩
          match dataset.id with
          | none => ⟨.error .keyError, [url], [], metadata, none⟩
          | some did =>
            let path := DOWNLOAD_DIR ++ "/" ++ did ++ ".csv"
            match dataset.last_modified with
            | none => ⟨.error .keyError, [url], [(path, renamed)], metadata, none⟩
            | some lm =>
              match parseIso lm.data with
              | none =>
                ⟨.error .valueError, [url], [(path, renamed)], metadata, none⟩
              | some t =>
                let m2 : Metadata := ⟨updateTV did (.dt t) metadata.last_run⟩
                ⟨.ok (.downloaded path), [url], [(path, renamed)], m2,
                  some (dumpLastRun m2.last_run)⟩
      else ⟨.ok (.failedStatus status), [url], [], metadata, none⟩

/-- Python `str.lower()` over ASCII strings. -/
def strLower (s : String) : String :=
  ⟨s.data.map lowerChar⟩

/-- Python's `in` operator on strings: contiguous-substring containment. -/
def pyInStr (a b : String) : Bool :=
  decide (a.data <:+: b.data)

/-- Embedding of the notebook's theme filter (line 96):
`[dataset for dataset in datasets if THEME.lower() in dataset['name'].lower()]`,
applied to the listed datasets with the configured theme. -/
def filterByTheme (datasets : List Dataset) (theme : String) : List Dataset :=
  datasets.filter (fun d => pyInStr (strLower theme) (strLower d.name))

/-- Environment of one whole `main()` run: the metadata file on disk if it
exists (reduced to its `last_run` mapping), the catalog response of
`requests.get(API_URL)` as a status code plus decoded `items`, and the
per-dataset fetcher. -/
structure MainEnv where
  metadataFile : Option (List (String × String))
  catalog : Except PyError (Nat × List Dataset)
  fetch : Fetcher

/-- Sequential execution of the per-dataset tasks sharing the metadata
dictionary.  The notebook submits one task per dataset to a thread pool;
this runs that pool's serial schedule, in submission order.  Every submitted
task executes regardless of earlier tasks' exceptions - the pool does not
cancel tasks when a sibling raises.  The racy interleavings of the per-task
persists are modelled separately by `persistStep` and `runSchedule`. -/
def runTasks (env : Fetcher) : List Dataset → Metadata → List TaskOut × Metadata
  | [], m => ([], m)
  | d :: ds, m =>
    let t := download_and_process env d m
    let (rest, mf) := runTasks env ds t.metadata
    (t :: rest, mf)

/-- Trace of one `main()` run: the overall result (`.error e` when the Python
process dies on exception `e`), the per-task traces, and the final state of
the shared metadata dictionary. -/
structure RunOut where
  result : Except PyError Unit
  tasks : List TaskOut
  finalMetadata : Metadata
deriving DecidableEq, Repr

/-- Exit status of the interpreter for a run: `main()` returning normally
exits 0; an uncaught exception exits non-zero (CPython uses 1). -/
def RunOut.exitCode (r : RunOut) : Nat :=
  match r.result with
  | .ok _ => 0
  | .error _ => 1

/-- Download URLs requested during a run, in task order. -/
def RunOut.allFetches (r : RunOut) : List String :=
  (r.tasks.map TaskOut.fetches).flatten

/-- Dataset files written during a run, in task order. -/
def RunOut.allWrites (r : RunOut) : List (String × Csv) :=
  (r.tasks.map TaskOut.writes).flatten

/-- Metadata file content after the run: the last `json.dump` any task
performed, `none` when no task persisted. -/
def RunOut.lastPersist (r : RunOut) : Option (List (String × String)) :=
  (r.tasks.filterMap TaskOut.persisted).getLast?

/-- Embedding of `main()` (notebook lines 80-107): load the metadata file or
start from `{'last_run': {}}`; fetch the catalog; on a non-200 status print
and return - a normal return, so the process exits 0; otherwise filter the
items by the theme and run one task per dataset; the loop over
`concurrent.futures.as_completed` calls `future.result()`, which re-raises a
task's exception in `main`, where nothing catches it. -/
def runMain (env : MainEnv) : RunOut :=
  let m0 : Metadata :=
    match env.metadataFile with
    | some file => loadMetadata file
    | none => ⟨[]⟩
  match env.catalog with
  | .error e => ⟨.error e, [], m0⟩
  | .ok (status, items) =>
    if status = 200 then
      let (touts, mf) := runTasks env.fetch (filterByTheme items THEME) m0
      let firstErr : Option PyError := touts.findSome? fun t =>
        match t.result with
        | .error e => some e
        | .ok _ => none
      ⟨match firstErr with
        | some e => .error e
        | none => .ok (), touts, mf⟩
    else ⟨.ok (), [], m0⟩

/-- Atomic events of the metadata-persistence race.  A successful task ends
with `metadata['last_run'][id] = t` - one dict assignment, atomic under the
GIL - followed by `json.dump(metadata, f)`, which first reads the dictionary
and then replaces the file content.  Sibling threads interleave between (and
during) those two steps, so the dump is modelled as a `snapshot` event
followed by a separate `writeFile` event. -/
inductive PEvent where
  | record (id : String) (t : DateTime)
  | snapshot (task : Nat)
  | writeFile (task : Nat)
deriving DecidableEq, Repr

/-- State of the persistence race: the shared in-memory dictionary, the
snapshot each task's dump has read, and the current metadata file content. -/
structure PState where
  mem : Metadata
  snaps : List (Nat × Metadata)
  file : Option (List (String × String))
deriving DecidableEq, Repr

/-- Snapshot lookup by task index. -/
def lookupSnap (k : Nat) : List (Nat × Metadata) → Option Metadata
  | [] => none
  | (k2, v) :: rest => if k2 = k then some v else lookupSnap k rest

/-- One atomic step of the persistence race. -/
def persistStep (s : PState) : PEvent → PState
  | .record i t => ⟨⟨updateTV i (.dt t) s.mem.last_run⟩, s.snaps, s.file⟩
  | .snapshot i => ⟨s.mem, (i, s.mem) :: s.snaps, s.file⟩
  | .writeFile i =>
    match lookupSnap i s.snaps with
    | some m => ⟨s.mem, s.snaps, some (dumpLastRun m.last_run)⟩
    | none => s

/-- Execution of a whole interleaving. -/
def runSchedule (init : PState) (sched : List PEvent) : PState :=
  sched.foldl persistStep init

/-- Event sequence of one successful task `i` recording dataset `i d` with
watermark `t`: the dict assignment, then the dump's read and its file
write. -/
def taskEvents (i : Nat) (did : String) (t : DateTime) : List PEvent :=
  [.record did t, .snapshot i, .writeFile i]

/-- Initial state of the race: empty metadata, no file yet. -/
def pInit : PState := ⟨⟨[]⟩, [], none⟩

/-- Dataset of the concrete scenarios: a fresh dataset whose name matches the
theme `"Hospitals"` case-insensitively. -/
def demoDataset : Dataset :=
  ⟨some "42", "CMS Hospitals List", some "2024-01-01T00:00:00", "url42"⟩

/-- Fetcher of the concrete scenarios: the dataset URL serves a small CSV
body, anything else fails to connect; the body parses to a one-column
table. -/
def demoFetcher : Fetcher where
  http := fun u =>
    if u = "url42" then .ok (200, "rawcsv") else .error .connectionError
  readCsv := fun b =>
    if b = "rawcsv" then .ok ⟨["Facility ID"], [["1"]]⟩ else .error .parseError

/-- First run of the two-run scenario: no metadata file yet, catalog lists
the one dataset. -/
def demoEnv1 : MainEnv := ⟨none, .ok (200, [demoDataset]), demoFetcher⟩

/-- Trace of the first run. -/
def demoRun1 : RunOut := runMain demoEnv1

/-- Second run: same catalog and fetcher, nothing changed remotely; the
metadata file is the one the first run persisted. -/
def demoEnv2 : MainEnv :=
  ⟨demoRun1.lastPersist, .ok (200, [demoDataset]), demoFetcher⟩

/-- Trace of the second run. -/
def demoRun2 : RunOut := runMain demoEnv2

example : demoRun1.result = .ok () := by decide

example : demoRun1.lastPersist = some [("42", "2024-01-01 00:00:00")] := by decide

example : demoRun2.result = .error .typeError := by decide

example : demoRun2.allFetches = [] := by decide

/-- Printable ASCII, the alphabet over which the spec quantifies the
normalizer's properties. -/
def printableAscii (c : Char) : Bool :=
  32 ≤ c.toNat && c.toNat ≤ 126

theorem char_toNat_inj {a b : Char} (h : a.toNat = b.toNat) : a = b := by
  have hv : a.val = b.val := UInt32.toNat.inj h
  exact Char.eq_of_val_eq hv

theorem isLowerDigit_iff {c : Char} :
    isLowerDigit c = true ↔
      (97 ≤ c.toNat ∧ c.toNat ≤ 122) ∨ (48 ≤ c.toNat ∧ c.toNat ≤ 57) := by
  unfold isLowerDigit
  simp

theorem isUpperAscii_iff {c : Char} :
    isUpperAscii c = true ↔ 65 ≤ c.toNat ∧ c.toNat ≤ 90 := by
  unfold isUpperAscii
  simp

theorem isWordChar_iff {c : Char} :
    isWordChar c = true ↔
      isLowerDigit c = true ∨ isUpperAscii c = true ∨ c = '_' := by
  unfold isWordChar
  simp [or_assoc]

theorem us_toNat : ('_').toNat = 95 := by decide

theorem eq_us_of_toNat {c : Char} (h : c.toNat = 95) : c = '_' :=
  char_toNat_inj (h.trans us_toNat.symm)

theorem upper_ne_us {c : Char} (h : isUpperAscii c = true) : c ≠ '_' := by
  intro he
  subst he
  exact absurd h (by decide)

theorem lowerDigit_ne_us {c : Char} (h : isLowerDigit c = true) : c ≠ '_' := by
  intro he
  subst he
  exact absurd h (by decide)

theorem lowerDigit_not_upper {c : Char} (h : isLowerDigit c = true) :
    ¬ isUpperAscii c = true := by
  rw [isLowerDigit_iff] at h
  rw [isUpperAscii_iff]
  omega

theorem us_not_upper : ¬ isUpperAscii '_' = true := by decide

theorem lowerChar_toNat {c : Char} (h : isUpperAscii c = true) :
    (lowerChar c).toNat = c.toNat + 32 := by
  unfold lowerChar
  rw [if_pos h]
  rw [isUpperAscii_iff] at h
  have hv : (c.toNat + 32).isValidChar := by
    unfold Nat.isValidChar
    omega
  rw [Char.ofNat, dif_pos hv]
  rfl

theorem lowerChar_id {c : Char} (h : ¬ isUpperAscii c = true) : lowerChar c = c := by
  unfold lowerChar
  rw [if_neg h]

theorem lowerChar_eq_us {c : Char} (h : lowerChar c = '_') : c = '_' := by
  by_cases hu : isUpperAscii c = true
  · exfalso
    have h1 := lowerChar_toNat hu
    rw [h, us_toNat] at h1
    rw [isUpperAscii_iff] at hu
    omega
  · rw [lowerChar_id hu] at h
    exact h

theorem lowerChar_ne_us {c : Char} (h : c ≠ '_') : lowerChar c ≠ '_' :=
  fun he => h (lowerChar_eq_us he)

theorem lowerChar_word_canon {c : Char} (h : isWordChar c = true) :
    isLowerDigit (lowerChar c) = true ∨ lowerChar c = '_' := by
  rcases isWordChar_iff.mp h with hld | hup | hus
  · left
    rw [lowerChar_id (lowerDigit_not_upper hld)]
    exact hld
  · left
    rw [isLowerDigit_iff, lowerChar_toNat hup]
    rw [isUpperAscii_iff] at hup
    omega
  · right
    subst hus
    decide

theorem head_dropWhile_not {p : Char → Bool} :
    ∀ (l : List Char) (c : Char), (l.dropWhile p).head? = some c → p c = false := by
  intro l
  induction l with
  | nil => intro c h; simp [List.dropWhile] at h
  | cons a t ih =>
    intro c h
    rw [List.dropWhile_cons] at h
    by_cases hp : p a = true
    · rw [if_pos hp] at h
      exact ih c h
    · rw [if_neg hp] at h
      simp at h
      rw [← h]
      simpa using hp

theorem getLast_dropWhile {p : Char → Bool} :
    ∀ l : List Char, l.dropWhile p ≠ [] → (l.dropWhile p).getLast? = l.getLast? := by
  intro l
  induction l with
  | nil => intro h; simp [List.dropWhile] at h
  | cons a t ih =>
    intro h
    rw [List.dropWhile_cons] at h ⊢
    by_cases hp : p a = true
    · rw [if_pos hp] at h ⊢
      have ht : t ≠ [] := by
        intro he
        subst he
        simp [List.dropWhile] at h
      rw [ih h]
      cases t with
      | nil => exact absurd rfl ht
      | cons b t2 => rw [List.getLast?_cons_cons]
    · rw [if_neg hp]

theorem dropWhile_id_of_head {p : Char → Bool} (l : List Char)
    (h : ∀ c, l.head? = some c → p c = false) : l.dropWhile p = l := by
  cases l with
  | nil => rfl
  | cons a t =>
    rw [List.dropWhile_cons, if_neg]
    have := h a rfl
    simp [this]

theorem strip_head_ne (l : List Char) :
    ∀ c, (stripUnderscores l).head? = some c → c ≠ '_' := by
  intro c h
  unfold stripUnderscores at h
  rw [List.head?_reverse] at h
  set d1 := l.dropWhile (· == '_') with hd1
  set d2 := d1.reverse.dropWhile (· == '_') with hd2
  have hne : d2 ≠ [] := by
    intro he
    rw [he] at h
    simp at h
  rw [hd2, getLast_dropWhile _ hne, List.getLast?_reverse] at h
  have hp := head_dropWhile_not (p := (· == '_')) l c h
  simpa using hp

theorem strip_last_ne (l : List Char) :
    ∀ c, (stripUnderscores l).getLast? = some c → c ≠ '_' := by
  intro c h
  unfold stripUnderscores at h
  rw [List.getLast?_reverse] at h
  have hp := head_dropWhile_not (p := (· == '_')) _ c h
  simpa using hp

theorem strip_id (l : List Char)
    (h1 : ∀ c, l.head? = some c → c ≠ '_')
    (h2 : ∀ c, l.getLast? = some c → c ≠ '_') : stripUnderscores l = l := by
  unfold stripUnderscores
  rw [dropWhile_id_of_head l (fun c hc => by simpa using h1 c hc)]
  rw [dropWhile_id_of_head l.reverse
    (fun c hc => by
      rw [List.head?_reverse] at hc
      simpa using h2 c hc)]
  exact List.reverse_reverse l

theorem strip_subset {l : List Char} {c : Char} (h : c ∈ stripUnderscores l) :
    c ∈ l := by
  unfold stripUnderscores at h
  rw [List.mem_reverse] at h
  have h2 := (List.dropWhile_suffix (· == '_')).subset h
  rw [List.mem_reverse] at h2
  exact (List.dropWhile_suffix (· == '_')).subset h2

theorem camelPass_head (c : Char) (t : List Char) :
    (camelPass (c :: t)).head? = some c := by
  cases t with
  | nil => rfl
  | cons c2 t2 =>
    show (if isLowerDigit c && isUpperAscii c2 then
        c :: '_' :: camelPass (c2 :: t2)
      else c :: camelPass (c2 :: t2)).head? = some c
    by_cases hb : (isLowerDigit c && isUpperAscii c2) = true
    · rw [if_pos hb]; rfl
    · rw [if_neg hb]; rfl

theorem camelPass_id : ∀ l : List Char,
    (∀ c ∈ l, ¬ isUpperAscii c = true) → camelPass l = l := by
  intro l
  induction l with
  | nil => intro _; rfl
  | cons c t ih =>
    intro h
    cases t with
    | nil => rfl
    | cons c2 t2 =>
      show (if isLowerDigit c && isUpperAscii c2 then
          c :: '_' :: camelPass (c2 :: t2)
        else c :: camelPass (c2 :: t2)) = c :: c2 :: t2
      have h2 : ¬ isUpperAscii c2 = true := h c2 (by simp)
      rw [if_neg (by simp [h2])]
      have := ih (fun d hd => h d (List.mem_cons_of_mem c hd))
      rw [this]

theorem squashAux_mem : ∀ (l : List Char) (b : Bool) (c : Char),
    c ∈ squashAux b l → isWordChar c = true := by
  intro l
  induction l with
  | nil => intro b c h; simp [squashAux] at h
  | cons a t ih =>
    intro b c h
    unfold squashAux at h
    by_cases hw : isWordChar a = true
    · rw [if_pos hw] at h
      rcases List.mem_cons.mp h with he | ht
      · subst he; exact hw
      · exact ih false c ht
    · rw [if_neg hw] at h
      cases b with
      | true => simpa using ih true c (by simpa using h)
      | false =>
        simp only [Bool.false_eq_true, if_false] at h
        rcases List.mem_cons.mp h with he | ht
        · subst he; decide
        · exact ih true c ht

theorem squashAux_id : ∀ l : List Char,
    (∀ c ∈ l, isWordChar c = true) → squashAux false l = l := by
  intro l
  induction l with
  | nil => intro _; rfl
  | cons a t ih =>
    intro h
    unfold squashAux
    rw [if_pos (h a (by simp))]
    rw [ih (fun d hd => h d (List.mem_cons_of_mem a hd))]

theorem map_lowerChar_id : ∀ l : List Char,
    (∀ c ∈ l, ¬ isUpperAscii c = true) → l.map lowerChar = l := by
  intro l
  induction l with
  | nil => intro _; rfl
  | cons a t ih =>
    intro h
    rw [List.map_cons, lowerChar_id (h a (by simp)),
      ih (fun d hd => h d (List.mem_cons_of_mem a hd))]

theorem canon_not_upper {c : Char} (h : isLowerDigit c = true ∨ c = '_') :
    ¬ isUpperAscii c = true := by
  rcases h with h | h
  · exact lowerDigit_not_upper h
  · subst h; decide

theorem canon_word {c : Char} (h : isLowerDigit c = true ∨ c = '_') :
    isWordChar c = true := by
  rw [isWordChar_iff]
  tauto

theorem tsc_data (s : String) :
    (to_snake_case s).data =
      (stripUnderscores (squashNonWord (camelPass s.data))).map lowerChar := rfl

theorem tsc_chars_canon (s : String) :
    ∀ c ∈ (to_snake_case s).data, isLowerDigit c = true ∨ c = '_' := by
  intro c hc
  rw [tsc_data] at hc
  rcases List.mem_map.mp hc with ⟨a, ha, hle⟩
  subst hle
  exact lowerChar_word_canon (squashAux_mem _ false a (strip_subset ha))

theorem tsc_head_ne (s : String) :
    ∀ c, (to_snake_case s).data.head? = some c → c ≠ '_' := by
  intro c h
  rw [tsc_data, List.head?_map] at h
  cases hh : (stripUnderscores (squashNonWord (camelPass s.data))).head? with
  | none => rw [hh] at h; simp at h
  | some a =>
    rw [hh] at h
    simp only [Option.map_some'] at h
    have ha := strip_head_ne _ a hh
    rw [← Option.some.inj h]
    exact lowerChar_ne_us ha

theorem tsc_last_ne (s : String) :
    ∀ c, (to_snake_case s).data.getLast? = some c → c ≠ '_' := by
  intro c h
  rw [tsc_data, ← List.head?_reverse, ← List.map_reverse, List.head?_map,
    List.head?_reverse] at h
  cases hh : (stripUnderscores (squashNonWord (camelPass s.data))).getLast? with
  | none => rw [hh] at h; simp at h
  | some a =>
    rw [hh] at h
    simp only [Option.map_some'] at h
    have ha := strip_last_ne _ a hh
    rw [← Option.some.inj h]
    exact lowerChar_ne_us ha

/-- Adjacency invariant holding along the output of the camel pass on an
underscore-free input: every underscore (all of them inserted by the pass)
sits between a lowercase-or-digit character and an uppercase character. -/
def SepCtx (a b : Char) : Prop :=
  (a = '_' → isUpperAscii b = true) ∧ (b = '_' → isLowerDigit a = true)

/-- Adjacent characters are not both underscores. -/
def NoDD (a b : Char) : Prop :=
  ¬(a = '_' ∧ b = '_')

theorem squashAux_word {b : Bool} {a : Char} {t : List Char}
    (hw : isWordChar a = true) :
    squashAux b (a :: t) = a :: squashAux false t := by
  cases b <;> simp [squashAux, hw]

theorem squashAux_nonword_false {a : Char} {t : List Char}
    (hw : ¬ isWordChar a = true) :
    squashAux false (a :: t) = '_' :: squashAux true t := by
  simp [squashAux, hw]

theorem squashAux_nonword_true {a : Char} {t : List Char}
    (hw : ¬ isWordChar a = true) :
    squashAux true (a :: t) = squashAux true t := by
  simp [squashAux, hw]

theorem camelPass_chain : ∀ l : List Char, (∀ c ∈ l, c ≠ '_') →
    List.Chain' SepCtx (camelPass l) := by
  intro l
  induction l with
  | nil => intro _; simp [camelPass]
  | cons c t ih =>
    intro h
    cases t with
    | nil => simp [camelPass]
    | cons c2 t2 =>
      have hc : c ≠ '_' := h c (by simp)
      have hc2 : c2 ≠ '_' := h c2 (by simp)
      have ihh := ih (fun d hd => h d (List.mem_cons_of_mem c hd))
      show List.Chain' SepCtx (if isLowerDigit c && isUpperAscii c2 then
          c :: '_' :: camelPass (c2 :: t2)
        else c :: camelPass (c2 :: t2))
      by_cases hb : (isLowerDigit c && isUpperAscii c2) = true
      · rw [if_pos hb]
        rw [Bool.and_eq_true] at hb
        rw [List.chain'_cons']
        refine ⟨?_, ?_⟩
        · intro y hy
          simp at hy
          subst hy
          exact ⟨fun he => absurd he hc, fun _ => hb.1⟩
        · rw [List.chain'_cons']
          refine ⟨?_, ihh⟩
          intro y hy
          rw [camelPass_head] at hy
          simp at hy
          subst hy
          exact ⟨fun _ => hb.2, fun he => absurd he hc2⟩
      · rw [if_neg hb]
        rw [List.chain'_cons']
        refine ⟨?_, ihh⟩
        intro y hy
        rw [camelPass_head] at hy
        simp at hy
        subst hy
        exact ⟨fun he => absurd he hc, fun he => absurd he hc2⟩

theorem squashAux_chain : ∀ l : List Char, List.Chain' SepCtx l →
    List.Chain' NoDD (squashAux false l) ∧
    (l.head? ≠ some '_' →
      List.Chain' NoDD (squashAux true l) ∧
      (squashAux true l).head? ≠ some '_') := by
  intro l
  induction l with
  | nil =>
    intro _
    refine ⟨by simp [squashAux], fun _ => ⟨by simp [squashAux], by simp [squashAux]⟩⟩
  | cons a t ih =>
    intro hch
    rw [List.chain'_cons'] at hch
    obtain ⟨hhead, hcht⟩ := hch
    have iht := ih hcht
    by_cases hw : isWordChar a = true
    · have hchain : List.Chain' NoDD (a :: squashAux false t) := by
        rw [List.chain'_cons']
        refine ⟨?_, iht.1⟩
        intro y hy
        by_cases ha : a = '_'
        · subst ha
          cases t with
          | nil => simp [squashAux] at hy
          | cons d t' =>
            have hd : isUpperAscii d = true := (hhead d rfl).1 rfl
            have hdw : isWordChar d = true := by
              rw [isWordChar_iff]
              tauto
            rw [squashAux_word hdw] at hy
            simp at hy
            subst hy
            exact fun hc => upper_ne_us hd hc.2
        · exact fun hc => ha hc.1
      refine ⟨by rw [squashAux_word hw]; exact hchain, ?_⟩
      intro hh
      have ha : a ≠ '_' := fun he => hh (by rw [he]; rfl)
      refine ⟨by rw [squashAux_word hw]; exact hchain, ?_⟩
      rw [squashAux_word hw]
      intro he
      exact ha (Option.some.inj he)
    · have ha : a ≠ '_' := fun he => by
        subst he
        exact hw (by decide)
      have hth : t.head? ≠ some '_' := by
        cases t with
        | nil => simp
        | cons d t' =>
          intro he
          have hd : d = '_' := Option.some.inj he
          have hld := (hhead d rfl).2 hd
          exact hw (canon_word (Or.inl hld))
      have iht2 := iht.2 hth
      refine ⟨?_, ?_⟩
      · rw [squashAux_nonword_false hw]
        rw [List.chain'_cons']
        refine ⟨?_, iht2.1⟩
        intro y hy hc
        apply iht2.2
        rw [hy]
        rw [hc.2]
      · intro _
        rw [squashAux_nonword_true hw]
        exact iht2

theorem chain_no_dd {m : List Char} (h : List.Chain' NoDD m) :
    ¬ ('_' :: '_' :: ([] : List Char)) <:+: m := by
  intro hinf
  obtain ⟨s, t, hst⟩ := hinf
  have hsuf : ('_' :: '_' :: t) <:+ m := ⟨s, by rw [← hst]; simp⟩
  have hc := h.suffix hsuf
  rw [List.chain'_cons'] at hc
  exact hc.1 '_' rfl ⟨rfl, rfl⟩

theorem nodd_strip {l : List Char} (h : List.Chain' NoDD l) :
    List.Chain' NoDD (stripUnderscores l) := by
  unfold stripUnderscores
  have h1 : List.Chain' NoDD (l.dropWhile (· == '_')) :=
    h.suffix (List.dropWhile_suffix _)
  have h2 : List.Chain' NoDD (l.dropWhile (· == '_')).reverse := by
    rw [List.chain'_reverse]
    exact h1.imp (fun _ _ hab hc => hab ⟨hc.2, hc.1⟩)
  have h3 := h2.suffix (List.dropWhile_suffix (· == '_'))
  rw [List.chain'_reverse]
  exact h3.imp (fun _ _ hab hc => hab ⟨hc.2, hc.1⟩)

theorem nodd_map_lower {l : List Char} (h : List.Chain' NoDD l) :
    List.Chain' NoDD (l.map lowerChar) := by
  rw [List.chain'_map]
  exact h.imp (fun _ _ hab hc => hab ⟨lowerChar_eq_us hc.1, lowerChar_eq_us hc.2⟩)

theorem tsc_no_dd (s : String) (h : ∀ c ∈ s.data, c ≠ '_') :
    ¬ ('_' :: '_' :: ([] : List Char)) <:+: (to_snake_case s).data := by
  apply chain_no_dd
  rw [tsc_data]
  apply nodd_map_lower
  apply nodd_strip
  show List.Chain' NoDD (squashAux false (camelPass s.data))
  exact (squashAux_chain _ (camelPass_chain s.data h)).1

theorem tsc_idem (s : String) :
    to_snake_case (to_snake_case s) = to_snake_case s := by
  have hcanon := tsc_chars_canon s
  have hnu : ∀ c ∈ (to_snake_case s).data, ¬ isUpperAscii c = true :=
    fun c hc => canon_not_upper (hcanon c hc)
  have hword : ∀ c ∈ (to_snake_case s).data, isWordChar c = true :=
    fun c hc => canon_word (hcanon c hc)
  show (⟨(stripUnderscores (squashNonWord
      (camelPass (to_snake_case s).data))).map lowerChar⟩ : String) =
    to_snake_case s
  rw [camelPass_id _ hnu]
  show (⟨(stripUnderscores (squashAux false
      (to_snake_case s).data)).map lowerChar⟩ : String) = to_snake_case s
  rw [squashAux_id _ hword,
    strip_id _ (tsc_head_ne s) (tsc_last_ne s),
    map_lowerChar_id _ hnu]

theorem runTasks_length (env : Fetcher) :
    ∀ (ds : List Dataset) (m : Metadata),
      ((runTasks env ds m).1).length = ds.length := by
  intro ds
  induction ds with
  | nil => intro m; rfl
  | cons d ds2 ih =>
    intro m
    unfold runTasks
    simp [ih]

/-- Fetcher whose single URL serves HTTP status 500. -/
def failFetcher : Fetcher where
  http := fun u =>
    if u = "url500" then .ok (500, "x") else .error .connectionError
  readCsv := fun _ => .error .parseError

/-- Catalog environment whose listing request answers with HTTP 500. -/
def catEnv500 : MainEnv := ⟨none, .ok (500, [demoDataset]), demoFetcher⟩

/-- Watermark of the first racing task. -/
def wmA : DateTime := ⟨2024, 1, 1, 0, 0, 0⟩

/-- Watermark of the second racing task. -/
def wmB : DateTime := ⟨2024, 1, 2, 0, 0, 0⟩

/-- Interleaving in which both tasks update the shared dictionary and read
their dump snapshots, task 1's file write lands first and task 0's file write
lands last. -/
def lostSchedule : List PEvent :=
  [.record "A" wmA, .snapshot 0, .record "B" wmB,
   .snapshot 1, .writeFile 1, .writeFile 0]

/-- Claim C1: for every dataset id, last-modified timestamp and metadata map
(with the watermark stored as the `datetime` value the code records), the
staleness predicate returns true exactly when the id is absent from
`last_run` or the dataset's `last_modified` is strictly later than the stored
watermark, and false when it is equal or earlier. -/
theorem isStale_iff_absent_or_newer
    (i nm lm url : String) (t : DateTime) (m : Metadata)
    (hp : parseIso lm.data = some t) :
    (lookupTV i m.last_run = none →
      file_modified_since_last_run ⟨some i, nm, some lm, url⟩ m = .ok true) ∧
    (∀ w : DateTime, lookupTV i m.last_run = some (.dt w) →
      (file_modified_since_last_run ⟨some i, nm, some lm, url⟩ m = .ok true ↔
        DateTime.ltb w t = true) ∧
      (file_modified_since_last_run ⟨some i, nm, some lm, url⟩ m = .ok false ↔
        DateTime.ltb w t = false)) := by
  unfold file_modified_since_last_run
  constructor
  · intro h
    simp [h]
  · intro w h
    simp [h, strptimeIso, hp, pyGtDateTime, bind, Except.bind]

/-- Witness for C1 at the spec's example vector: watermark 2024-01-01 for id
42; last-modified 2024-01-02 is stale, 2023-12-31 and the equal timestamp are
not. -/
theorem isStale_iff_absent_or_newer_witness :
    file_modified_since_last_run
      ⟨some "42", "A", some "2024-01-02T00:00:00", "u"⟩
      ⟨[("42", TimeVal.dt ⟨2024, 1, 1, 0, 0, 0⟩)]⟩ = .ok true ∧
    file_modified_since_last_run
      ⟨some "42", "A", some "2023-12-31T00:00:00", "u"⟩
      ⟨[("42", TimeVal.dt ⟨2024, 1, 1, 0, 0, 0⟩)]⟩ = .ok false ∧
    file_modified_since_last_run
      ⟨some "42", "A", some "2024-01-01T00:00:00", "u"⟩
      ⟨[("42", TimeVal.dt ⟨2024, 1, 1, 0, 0, 0⟩)]⟩ = .ok false := by
  refine ⟨?_, ?_, ?_⟩
  · exact ((isStale_iff_absent_or_newer "42" "A" "2024-01-02T00:00:00" "u"
      ⟨2024, 1, 2, 0, 0, 0⟩ ⟨[("42", .dt ⟨2024, 1, 1, 0, 0, 0⟩)]⟩
      (by decide)).2 ⟨2024, 1, 1, 0, 0, 0⟩ (by decide)).1.mpr (by decide)
  · exact ((isStale_iff_absent_or_newer "42" "A" "2023-12-31T00:00:00" "u"
      ⟨2023, 12, 31, 0, 0, 0⟩ ⟨[("42", .dt ⟨2024, 1, 1, 0, 0, 0⟩)]⟩
      (by decide)).2 ⟨2024, 1, 1, 0, 0, 0⟩ (by decide)).2.mpr (by decide)
  · exact ((isStale_iff_absent_or_newer "42" "A" "2024-01-01T00:00:00" "u"
      ⟨2024, 1, 1, 0, 0, 0⟩ ⟨[("42", .dt ⟨2024, 1, 1, 0, 0, 0⟩)]⟩
      (by decide)).2 ⟨2024, 1, 1, 0, 0, 0⟩ (by decide)).2.mpr (by decide)

/-- Claim C10: when the dataset id is absent from `last_run` the staleness
predicate returns true without parsing `last_modified`; it succeeds even when
`last_modified` is missing or not a well-formed timestamp. -/
theorem isStale_absent_skips_parse (d : Dataset) (m : Metadata)
    (h : ∀ i, d.id = some i → lookupTV i m.last_run = none) :
    file_modified_since_last_run d m = .ok true := by
  unfold file_modified_since_last_run
  cases hid : d.id with
  | none => simp [hid]
  | some i => simp [hid, h i hid]

/-- Witness for C10: with empty metadata the check returns true for a dataset
whose `last_modified` is absent, and for one whose `last_modified` is not a
well-formed timestamp. -/
theorem isStale_absent_skips_parse_witness :
    file_modified_since_last_run ⟨some "x", "n", none, "u"⟩ ⟨[]⟩ = .ok true ∧
    file_modified_since_last_run ⟨some "x", "n", some "garbage", "u"⟩ ⟨[]⟩ =
      .ok true :=
  ⟨isStale_absent_skips_parse ⟨some "x", "n", none, "u"⟩ ⟨[]⟩ (fun _ _ => rfl),
   isStale_absent_skips_parse ⟨some "x", "n", some "garbage", "u"⟩ ⟨[]⟩
     (fun _ _ => rfl)⟩

/-- Claim C2 (code bug): in the two-run scenario with no remote change, the
first run downloads the dataset and persists its watermark through
`json.dump(..., default=str)` as the string "2024-01-01 00:00:00"; the second
run, loading that file, does not skip the dataset - its staleness check
raises `TypeError` (comparing a `datetime` against the loaded string), which
escapes the task and kills the run.  No download URL is requested in the
second run, but only because the crash happens before the request. -/
theorem second_run_raises_instead_of_skipping :
    demoRun1.result = .ok () ∧
    demoRun1.tasks.map TaskOut.result =
      [.ok (.downloaded "./datasets/42.csv")] ∧
    demoRun1.lastPersist = some [("42", "2024-01-01 00:00:00")] ∧
    demoRun2.result = .error .typeError ∧
    demoRun2.exitCode = 1 ∧
    demoRun2.allFetches = [] ∧
    (∀ t ∈ demoRun2.tasks, t.result ≠ .ok .skipped) := by decide

/-- Claim C3 (code bug): the persisted watermark string does not round-trip.
In memory the watermark of id 42 is the parsed `datetime`, and the staleness
check for an unchanged dataset answers `False` (skip); after
`json.dump(..., default=str)` and `json.load`, the watermark is the string
"2024-01-01 00:00:00", and the same staleness check raises `TypeError`
instead of giving the same answer. -/
theorem persist_load_breaks_staleness :
    file_modified_since_last_run
      ⟨some "42", "A", some "2024-01-01T00:00:00", "u"⟩
      ⟨[("42", TimeVal.dt ⟨2024, 1, 1, 0, 0, 0⟩)]⟩ = .ok false ∧
    dumpLastRun [("42", TimeVal.dt ⟨2024, 1, 1, 0, 0, 0⟩)] =
      [("42", "2024-01-01 00:00:00")] ∧
    loadMetadata (dumpLastRun [("42", TimeVal.dt ⟨2024, 1, 1, 0, 0, 0⟩)]) =
      ⟨[("42", TimeVal.str "2024-01-01 00:00:00")]⟩ ∧
    file_modified_since_last_run
      ⟨some "42", "A", some "2024-01-01T00:00:00", "u"⟩
      (loadMetadata (dumpLastRun [("42", TimeVal.dt ⟨2024, 1, 1, 0, 0, 0⟩)])) =
      .error .typeError := by decide

/-- Claim C9 (code bug): `lostSchedule` is a true interleaving of the two
tasks' record-snapshot-write sequences (each task's events in order, and
together a permutation of both), after which the shared dictionary holds both
watermarks but the metadata file holds only task 0's: task 1's successful
update is lost to the last, stale, full-file write. -/
theorem racy_persist_loses_watermark :
    List.Sublist (taskEvents 0 "A" wmA) lostSchedule ∧
    List.Sublist (taskEvents 1 "B" wmB) lostSchedule ∧
    lostSchedule.Perm (taskEvents 0 "A" wmA ++ taskEvents 1 "B" wmB) ∧
    (runSchedule pInit lostSchedule).mem =
      ⟨[("A", .dt wmA), ("B", .dt wmB)]⟩ ∧
    (runSchedule pInit lostSchedule).file =
      some [("A", "2024-01-01 00:00:00")] ∧
    (∀ p ∈ ((runSchedule pInit lostSchedule).file).getD [], p.1 ≠ "B") := by
  decide

/-- Counterexample to claim C4: `\W` does not match the underscore, so the
input "a__b" keeps its doubled separator - the output contains "__", refuting
"never contains doubled separators". -/
theorem doubled_separator_cex :
    to_snake_case "a__b" = "a__b" ∧
    ('_' :: '_' :: ([] : List Char)) <:+: (to_snake_case "a__b").data := by
  exact ⟨by decide, by decide⟩

/-- Claim C4 as amended: the substitution replaces each maximal run of
non-word characters (non-alphanumeric and not underscore) with one separator;
the output never starts or ends with a separator, and for inputs containing
no underscore of their own it never contains doubled separators - consecutive
punctuation collapses to exactly one separator. -/
theorem to_snake_case_amended (s : String) (h : ∀ c ∈ s.data, c ≠ '_') :
    (¬ ('_' :: '_' :: ([] : List Char)) <:+: (to_snake_case s).data) ∧
    (∀ c, (to_snake_case s).data.head? = some c → c ≠ '_') ∧
    (∀ c, (to_snake_case s).data.getLast? = some c → c ≠ '_') :=
  ⟨tsc_no_dd s h, tsc_head_ne s, tsc_last_ne s⟩

/-- Witness for the amended C4 on "a--b!!": no doubled separator in the
output. -/
theorem to_snake_case_amended_witness :
    ¬ ('_' :: '_' :: ([] : List Char)) <:+: (to_snake_case "a--b!!").data :=
  (to_snake_case_amended "a--b!!" (by decide)).1

/-- Claim C5: the normalizer is total (a total function by construction) and
idempotent on printable-ASCII strings, and takes the spec's concrete
values. -/
theorem normalize_idempotent_total :
    (∀ s : String, (∀ c ∈ s.data, printableAscii c = true) →
      to_snake_case (to_snake_case s) = to_snake_case s) ∧
    to_snake_case "HospitalName" = "hospital_name" ∧
    to_snake_case "Facility ID" = "facility_id" ∧
    to_snake_case "___Weird---Name!!" = "weird_name" ∧
    to_snake_case "" = "" :=
  ⟨fun s _ => tsc_idem s, by decide, by decide, by decide, by decide⟩

/-- Witness for C5's idempotence at "Facility ID". -/
theorem normalize_idempotent_total_witness :
    to_snake_case (to_snake_case "Facility ID") = to_snake_case "Facility ID" :=
  normalize_idempotent_total.1 "Facility ID" (by decide)

/-- Claim C6: the theme filter returns exactly the datasets whose name
contains the theme as a case-insensitive substring, in the input's relative
order (the output is a sublist of the input). -/
theorem filterByTheme_exact (ds : List Dataset) (theme : String) :
    List.Sublist (filterByTheme ds theme) ds ∧
    ∀ d, d ∈ filterByTheme ds theme ↔
      d ∈ ds ∧ (strLower theme).data <:+: (strLower d.name).data := by
  constructor
  · exact List.filter_sublist ds
  · intro d
    unfold filterByTheme pyInStr
    rw [List.mem_filter]
    simp

/-- Counterexample to claim C7: an exception in the fetch is not caught at
the task boundary and not converted to a failure result - the task raises
`ConnectionError` out of its body (the function has no try/except). -/
theorem task_exception_escapes_cex :
    (download_and_process demoFetcher
      ⟨some "7", "N", some "2024-01-01T00:00:00", "badurl"⟩ ⟨[]⟩).result =
      .error .connectionError := by decide

/-- Claim C7 as amended: only a non-success HTTP status of the dataset
download is handled inside the task (it prints and returns normally, the
failed-status outcome); any exception escapes the task uncaught and is
re-raised when the orchestrator collects results; every submitted task still
executes (the pool does not cancel siblings). -/
theorem task_error_handling_amended (env : Fetcher) (d : Dataset)
    (m : Metadata) (hstale : file_modified_since_last_run d m = .ok true) :
    (∀ status body, env.http d.download_url = .ok (status, body) →
      status ≠ 200 →
      (download_and_process env d m).result = .ok (.failedStatus status)) ∧
    (∀ e, env.http d.download_url = .error e →
      (download_and_process env d m).result = .error e) ∧
    (∀ ds : List Dataset, ((runTasks env ds m).1).length = ds.length) := by
  refine ⟨?_, ?_, fun ds => runTasks_length env ds m⟩
  · intro status body hh hs
    unfold download_and_process
    simp [hstale, hh, hs]
  · intro e hh
    unfold download_and_process
    simp [hstale, hh]

/-- Witness for the amended C7: a 500 status yields the failed-status
outcome without an exception, and the task list keeps its length. -/
theorem task_error_handling_amended_witness :
    (download_and_process failFetcher
      ⟨some "9", "N", some "2024-01-01T00:00:00", "url500"⟩ ⟨[]⟩).result =
      .ok (.failedStatus 500) :=
  (task_error_handling_amended failFetcher
    ⟨some "9", "N", some "2024-01-01T00:00:00", "url500"⟩ ⟨[]⟩
    (by decide)).1 500 "x" (by decide) (by decide)

/-- Counterexample to claim C8: with the catalog answering 500 the run
performs no dataset work, but the process exit status is 0, not non-zero -
`main` prints the failure and returns normally. -/
theorem catalog_failure_exit_zero_cex :
    catEnv500.catalog = .ok (500, [demoDataset]) ∧
    (runMain catEnv500).exitCode = 0 := by
  exact ⟨rfl, by decide⟩

/-- Claim C8 as amended: a non-success catalog status aborts the run before
any dataset work (no task started, no URL fetched, no file written) and the
process terminates normally with exit status zero. -/
theorem catalog_failure_aborts_run (env : MainEnv) (status : Nat)
    (items : List Dataset) (hc : env.catalog = .ok (status, items))
    (hs : status ≠ 200) :
    (runMain env).tasks = [] ∧
    (runMain env).allFetches = [] ∧
    (runMain env).allWrites = [] ∧
    (runMain env).exitCode = 0 := by
  unfold runMain
  simp [hc, hs, RunOut.exitCode, RunOut.allFetches, RunOut.allWrites]

/-- Witness for the amended C8 at the concrete 500-status environment. -/
theorem catalog_failure_aborts_run_witness :
    (runMain catEnv500).tasks = [] ∧
    (runMain catEnv500).allFetches = [] ∧
    (runMain catEnv500).allWrites = [] ∧
    (runMain catEnv500).exitCode = 0 :=
  catalog_failure_aborts_run catEnv500 500 [demoDataset] rfl (by decide)
